import Mathlib

/-!
Verification development for the VZ Portal repository.

The two pieces of executable logic in the repository are embedded here:

* the PostgreSQL trigger `handle_application_status_change` on the
  `public.applications` table together with the table's CHECK constraints
  (`valid_dates`, `valid_status_transitions`), from the Backend
  Architecture document; and
* the DMS synchronization edge function (`serve`, `pushDocumentsToDMS`,
  `pullDocumentsFromDMS`, `getDMSConfigurations`, `getDMSSyncStatus`,
  `logSyncOperation` helpers), from the API Integration Guide.

External effects (HTTP uploads to the DMS, blob downloads from storage,
the list of changed external documents) are modelled as explicit
oracle parameters at exactly the call sites where the source performs
the corresponding network call; the relational tables are modelled as
in-memory lists of rows threaded through the functions.
-/

namespace VZ

/-! ## Application status workflow (Backend Architecture document) -/

/-- The `application_status_enum` PostgreSQL type. -/
inductive ApplicationStatus where
  | draft
  | submitted
  | under_review
  | additional_info_required
  | interview_scheduled
  | decision_pending
  | approved
  | rejected
  | withdrawn
  | on_hold
  | appealed
  | expired
deriving DecidableEq, Repr

/-- The columns of `public.applications` that the status trigger and the
table CHECK constraints read or write.  Timestamps are abstracted as `Nat`;
`form_data` and `metadata` are the opaque JSONB payloads. -/
structure Application where
  status : ApplicationStatus
  submitted_at : Option Nat
  review_started_at : Option Nat
  decision_date : Option Nat
  expiry_date : Option Nat
  form_data : String
  metadata : String
  created_at : Nat
  version : Nat
deriving DecidableEq, Repr

/-- An UPDATE statement on an application row: the mutable business fields
it may set (`none` = column not mentioned in the SET list). -/
structure AppPatch where
  status : Option ApplicationStatus := none
  form_data : Option String := none
  metadata : Option String := none
deriving DecidableEq, Repr

/-- The NEW row an UPDATE presents to the BEFORE UPDATE trigger. -/
def applyPatch (a : Application) (p : AppPatch) : Application :=
  { a with
    status := p.status.getD a.status
    form_data := p.form_data.getD a.form_data
    metadata := p.metadata.getD a.metadata }

/-- The `CASE NEW.status ... END CASE` block of
`handle_application_status_change`: derives `submitted_at`,
`review_started_at` and `decision_date` on NEW. -/
def applyStatusTimestamps (oldRow newRow : Application) (now : Nat) : Application :=
  if newRow.status = ApplicationStatus.submitted then
    (if oldRow.status = ApplicationStatus.draft then
      { newRow with submitted_at := some now } else newRow)
  else if newRow.status = ApplicationStatus.under_review then
    (if newRow.review_started_at = none then
      { newRow with review_started_at := some now } else newRow)
  else if newRow.status = ApplicationStatus.approved ∨
          newRow.status = ApplicationStatus.rejected then
    (if newRow.decision_date = none then
      { newRow with decision_date := some now } else newRow)
  else newRow

/-- The `handle_application_status_change` trigger function (BEFORE UPDATE
on `public.applications`): timestamp derivation followed by the version
bump when `form_data` or `status` is distinct from OLD. -/
def handle_application_status_change (oldRow newRow : Application) (now : Nat) :
    Application :=
  let n1 := applyStatusTimestamps oldRow newRow now
  if oldRow.form_data ≠ n1.form_data ∨ oldRow.status ≠ n1.status then
    { n1 with version := oldRow.version + 1 }
  else n1

/-- The `valid_dates` CHECK constraint, under SQL three-valued logic: a
clause comparing against a NULL column is unknown and does not fail the
check, so each conjunct is false only when both operands are present and
the comparison fails. -/
def valid_dates (a : Application) : Bool :=
  (match a.submitted_at with
   | none => true
   | some s => decide (a.created_at ≤ s)) &&
  (match a.decision_date, a.submitted_at with
   | some d, some s => decide (s ≤ d)
   | _, _ => true) &&
  (match a.expiry_date with
   | none => true
   | some e => decide (a.created_at < e))

/-- The `valid_status_transitions` CHECK constraint:
`(status = draft AND submitted_at IS NULL) OR (status <> draft AND submitted_at IS NOT NULL)`. -/
def valid_status_transitions (a : Application) : Bool :=
  (decide (a.status = ApplicationStatus.draft) && decide (a.submitted_at = none)) ||
  (decide (a.status ≠ ApplicationStatus.draft) && decide (a.submitted_at ≠ none))

/-- One UPDATE of an application row as PostgreSQL executes it: the patch
builds NEW, the BEFORE UPDATE trigger rewrites NEW, and the row is stored
only if the CHECK constraints accept it (`none` = statement rejected,
row unchanged). -/
def updateApplication (a : Application) (p : AppPatch) (now : Nat) :
    Option Application :=
  let n := handle_application_status_change a (applyPatch a p) now
  if valid_dates n && valid_status_transitions n then some n else none

/-- The invariant stated by the spec for `submitted_at`, as a proposition
on a row. -/
def submittedIffNotDraft (a : Application) : Prop :=
  a.submitted_at ≠ none ↔ a.status ≠ ApplicationStatus.draft

instance (a : Application) : Decidable (submittedIffNotDraft a) := by
  unfold submittedIffNotDraft
  infer_instance

/-- A patch counts as significant for a row when it changes `form_data`
or `status` (the condition of the trigger's version bump). -/
def significantPatch (a : Application) (p : AppPatch) : Prop :=
  p.form_data.getD a.form_data ≠ a.form_data ∨ p.status.getD a.status ≠ a.status

/-- A sequence of UPDATEs, each of which must be accepted. -/
def applyMutations (a : Application) : List (AppPatch × Nat) → Option Application
  | [] => some a
  | (p, t) :: rest =>
    match updateApplication a p t with
    | some a' => applyMutations a' rest
    | none => none

/-- Along a trajectory, every patch changes `form_data` or `status` of the
row it is applied to. -/
def allSignificant : Application → List (AppPatch × Nat) → Prop
  | _, [] => True
  | a, (p, t) :: rest =>
    significantPatch a p ∧
    ∀ a', updateApplication a p t = some a' → allSignificant a' rest

/-! ## DMS synchronization edge function (API Integration Guide) -/

/-- A row of the `documents` table, restricted to the columns the sync
edge function reads or writes. -/
structure Doc where
  id : Nat
  file_name : String
  file_size : Nat
  file_type : String
  storage_path : String
  metadata : String
  external_dms_id : Option String
  external_dms_url : Option String
  needs_sync : Bool
  synced_at : Option Nat
  sync_metadata : Option String
  updated_at : Nat
deriving DecidableEq, Repr

/-- An `ExternalDocumentDescriptor` as consumed by the pull loop and by
`mapExternalDocumentToLocal`. -/
structure ExtDoc where
  id : String
  name : String
  size : Nat
  tp : String
  metadata : String
deriving DecidableEq, Repr

/-- What a successful `uploadToExternalDMS` call resolves to. -/
structure UploadResult where
  externalId : String
  url : String
  metadata : String
deriving DecidableEq, Repr

/-- The possible resolutions of the `conflictResolution` option. -/
inductive ConflictResolution where
  | local_wins
  | remote_wins
  | manual
deriving DecidableEq, Repr

/-- The `DMSSyncOptions` request field. -/
structure SyncOptions where
  dryRun : Bool := false
  forceSync : Bool := false
  conflictResolution : Option ConflictResolution := none
deriving DecidableEq, Repr

/-- Status tag of one per-item result object. -/
inductive ItemStatus where
  | success
  | error
  | dry_run
deriving DecidableEq, Repr

/-- One element of the `results` array built by the push and pull loops;
fields that a given branch does not set are `none` (JSON keys absent). -/
structure ItemResult where
  documentId : Option Nat := none
  externalId : Option String := none
  status : ItemStatus
  action : Option String := none
  errorMsg : Option String := none
deriving DecidableEq, Repr

/-- The aggregate object returned by `pushDocumentsToDMS` and
`pullDocumentsFromDMS`. -/
structure SyncReport where
  totalDocuments : Nat
  successful : Nat
  failed : Nat
  dryRun : Nat
  results : List ItemResult
deriving DecidableEq, Repr

/-- A `DMSAuthConfig`. -/
structure DMSAuthConfig where
  tp : String
  clientId : String
  clientSecret : String
  tenantId : String
deriving DecidableEq, Repr

/-- A `DMSSyncSettings` record. -/
structure DMSSyncSettings where
  syncInterval : Nat
  batchSize : Nat
  retryAttempts : Nat
  conflictResolution : ConflictResolution
  enableRealTimeSync : Bool
deriving DecidableEq, Repr

/-- A `DMSConfig` record. -/
structure DMSConfig where
  systemId : String
  name : String
  tp : String
  endpoint : String
  authentication : DMSAuthConfig
  syncSettings : DMSSyncSettings
deriving DecidableEq, Repr

/-- The `getDMSConfigurations` helper: the hard-coded single SharePoint
configuration (environment-variable strings abstracted as empty). -/
def getDMSConfigurations : List DMSConfig :=
  [{ systemId := "sharepoint-main"
     name := "Primary SharePoint"
     tp := "sharepoint"
     endpoint := ""
     authentication :=
       { tp := "oauth2", clientId := "", clientSecret := "", tenantId := "" }
     syncSettings :=
       { syncInterval := 15
         batchSize := 50
         retryAttempts := 3
         conflictResolution := ConflictResolution.manual
         enableRealTimeSync := true } }]

/-- The config-selection expression
`dmsSystemId ? dmsConfigs.find(c => c.systemId === dmsSystemId) : dmsConfigs[0]`,
including the JavaScript falsiness of the empty string. -/
def selectDMSConfig (dmsSystemId : Option String) : Option DMSConfig :=
  match dmsSystemId with
  | some s =>
    if s = "" then getDMSConfigurations.head?
    else getDMSConfigurations.find? (fun c => decide (c.systemId = s))
  | none => getDMSConfigurations.head?

/-- The filter `.or('external_dms_id.is.null,needs_sync.eq.true')` used when
no explicit id list is supplied. -/
def needsSyncPred (d : Doc) : Bool :=
  decide (d.external_dms_id = none) || d.needs_sync

/-- Candidate selection of the push: an explicit non-empty id list selects
by id (`documentIds?.length` truthy), otherwise the needs-sync filter. -/
def findDocumentsNeedingSync (store : List Doc) (documentIds : Option (List Nat)) :
    List Doc :=
  match documentIds with
  | some (i :: is) => store.filter (fun d => decide (d.id ∈ i :: is))
  | _ => store.filter needsSyncPred

/-- The row update a successful push performs:
`external_dms_id`, `external_dms_url`, `synced_at`, `needs_sync := false`,
`sync_metadata`. -/
def applySyncUpdate (d : Doc) (r : UploadResult) (now : Nat) : Doc :=
  { d with
    external_dms_id := some r.externalId
    external_dms_url := some r.url
    synced_at := some now
    needs_sync := false
    sync_metadata := some r.metadata }

/-- The body of the push loop for one candidate document.  `dl` is the
storage download (`supabase.storage.download`), `ul` the external upload
(`uploadToExternalDMS`); `ul` additionally receives a running call counter
so that each HTTP upload request is a distinct event.  Returns the item
result, the updated table, and the counter after the item. -/
def processPushItem (opts : SyncOptions) (dl : Doc → Except String String)
    (ul : Nat → Doc → String → Except String UploadResult) (now : Nat)
    (doc : Doc) (store : List Doc) (n : Nat) :
    ItemResult × List Doc × Nat :=
  if opts.dryRun then
    ({ documentId := some doc.id, status := ItemStatus.dry_run,
       action := some "would_sync" }, store, n)
  else
    match dl doc with
    | Except.error m =>
      ({ documentId := some doc.id, status := ItemStatus.error,
         errorMsg := some ("Failed to download document: " ++ m) }, store, n)
    | Except.ok blob =>
      match ul n doc blob with
      | Except.error m =>
        ({ documentId := some doc.id, status := ItemStatus.error,
           errorMsg := some m }, store, n + 1)
      | Except.ok r =>
        ({ documentId := some doc.id, externalId := some r.externalId,
           status := ItemStatus.success, action := some "synced" },
         store.map (fun d => if d.id = doc.id then applySyncUpdate d r now else d),
         n + 1)

/-- The `for (const doc of documents)` loop of `pushDocumentsToDMS`: the
candidate list is the snapshot fetched before the loop, the table and the
upload call counter are threaded through, and every thrown item error is
caught into an error entry so the loop continues. -/
def pushItems (opts : SyncOptions) (dl : Doc → Except String String)
    (ul : Nat → Doc → String → Except String UploadResult) (now : Nat) :
    List Doc → List Doc → Nat → List ItemResult × List Doc × Nat
  | [], store, n => ([], store, n)
  | doc :: docs, store, n =>
    let step := processPushItem opts dl ul now doc store n
    let rest := pushItems opts dl ul now docs step.2.1 step.2.2
    (step.1 :: rest.1, rest.2.1, rest.2.2)

/-- Aggregation of the per-item results into the returned report object. -/
def mkSyncReport (total : Nat) (results : List ItemResult) : SyncReport :=
  { totalDocuments := total
    successful := (results.filter (fun r => decide (r.status = ItemStatus.success))).length
    failed := (results.filter (fun r => decide (r.status = ItemStatus.error))).length
    dryRun := (results.filter (fun r => decide (r.status = ItemStatus.dry_run))).length
    results := results }

/-- The `pushDocumentsToDMS` function: fetch the candidate snapshot, resolve
the DMS configuration (throwing `DMS configuration not found` when the
lookup fails, with JavaScript printing `undefined` for an absent id), run
the item loop, aggregate the report.  The row update on success is the
in-memory table write. -/
def pushDocumentsToDMS (store : List Doc) (dmsSystemId : Option String)
    (documentIds : Option (List Nat)) (opts : SyncOptions)
    (dl : Doc → Except String String)
    (ul : Nat → Doc → String → Except String UploadResult)
    (now n0 : Nat) : Except String (SyncReport × List Doc × Nat) :=
  let documents := findDocumentsNeedingSync store documentIds
  match selectDMSConfig dmsSystemId with
  | none =>
    Except.error ("DMS configuration not found: " ++ dmsSystemId.getD "undefined")
  | some _ =>
    let looped := pushItems opts dl ul now documents store n0
    Except.ok (mkSyncReport documents.length looped.1, looped.2.1, looped.2.2)

/-- `mapExternalDocumentToLocal` applied on top of an existing row, plus the
`synced_at`/`sync_metadata` fields the update statement adds. -/
def applyPullUpdate (d : Doc) (ext : ExtDoc) (now : Nat) : Doc :=
  { d with
    file_name := ext.name
    file_size := ext.size
    file_type := ext.tp
    metadata := ext.metadata
    updated_at := now
    synced_at := some now
    sync_metadata := some ext.metadata }

/-- The row inserted for an external descriptor with no local counterpart:
`mapExternalDocumentToLocal` output plus `external_dms_id`, `synced_at`,
`sync_metadata`; the remaining columns take their defaults and `newId` is
the generated primary key. -/
def newDocFromExternal (ext : ExtDoc) (now newId : Nat) : Doc :=
  { id := newId
    file_name := ext.name
    file_size := ext.size
    file_type := ext.tp
    storage_path := ""
    metadata := ext.metadata
    external_dms_id := some ext.id
    external_dms_url := none
    needs_sync := false
    synced_at := some now
    sync_metadata := some ext.metadata
    updated_at := now }

/-- The body of the pull loop for one external descriptor: look up the
local row by external id; if found, overwrite it from the descriptor; if
not, insert a new row.  Returns the item result, the updated table and the
next generated id. -/
def processPullItem (opts : SyncOptions) (now : Nat) (ext : ExtDoc)
    (store : List Doc) (nextId : Nat) : ItemResult × List Doc × Nat :=
  if opts.dryRun then
    ({ externalId := some ext.id, status := ItemStatus.dry_run,
       action := some "would_update" }, store, nextId)
  else
    match store.find? (fun d => decide (d.external_dms_id = some ext.id)) with
    | some existingDoc =>
      ({ externalId := some ext.id, documentId := some existingDoc.id,
         status := ItemStatus.success, action := some "updated" },
       store.map (fun d => if d.id = existingDoc.id then applyPullUpdate d ext now else d),
       nextId)
    | none =>
      ({ externalId := some ext.id, documentId := some nextId,
         status := ItemStatus.success, action := some "created" },
       store ++ [newDocFromExternal ext now nextId], nextId + 1)

/-- The `for (const extDoc of externalDocuments)` loop of
`pullDocumentsFromDMS`, with every thrown item error caught into an error
entry. -/
def pullItems (opts : SyncOptions) (now : Nat) :
    List ExtDoc → List Doc → Nat → List ItemResult × List Doc × Nat
  | [], store, nextId => ([], store, nextId)
  | ext :: exts, store, nextId =>
    let step := processPullItem opts now ext store nextId
    let rest := pullItems opts now exts step.2.1 step.2.2
    (step.1 :: rest.1, rest.2.1, rest.2.2)

/-- The `pullDocumentsFromDMS` function: resolve the configuration, fetch
the changed external descriptors (`fetchDocumentsFromDMS`, an external
call modelled as the oracle `fetchDMS` applied to `since`), run the item
loop, aggregate the report. -/
def pullDocumentsFromDMS (store : List Doc) (dmsSystemId : Option String)
    (since : Option Nat) (opts : SyncOptions)
    (fetchDMS : Option Nat → List ExtDoc) (now nextId : Nat) :
    Except String (SyncReport × List Doc × Nat) :=
  match selectDMSConfig dmsSystemId with
  | none =>
    Except.error ("DMS configuration not found: " ++ dmsSystemId.getD "undefined")
  | some _ =>
    let externalDocuments := fetchDMS since
    let looped := pullItems opts now externalDocuments store nextId
    Except.ok (mkSyncReport externalDocuments.length looped.1, looped.2.1, looped.2.2)

/-! ## Trigger surface: the `serve` handler and its JSON responses -/

/-- JSON values, as far as the edge function's responses need them. -/
inductive Json where
  | str : String → Json
  | num : Nat → Json
  | jbool : Bool → Json
  | obj : List (String × Json) → Json
  | arr : List Json → Json

/-- `JSON.stringify` drops object keys whose value is `undefined`; an
optional field therefore contributes its key only when present. -/
def optField (k : String) : Option Json → List (String × Json)
  | some j => [(k, j)]
  | none => []

/-- Serialization of one per-item result object (absent fields dropped,
as `JSON.stringify` does for `undefined`). -/
def encodeItemResult (r : ItemResult) : Json :=
  Json.obj
    (optField "documentId" (r.documentId.map Json.num) ++
     optField "externalId" (r.externalId.map Json.str) ++
     [("status", Json.str (match r.status with
        | ItemStatus.success => "success"
        | ItemStatus.error => "error"
        | ItemStatus.dry_run => "dry_run"))] ++
     optField "action" (r.action.map Json.str) ++
     optField "error" (r.errorMsg.map Json.str))

/-- Serialization of a sync report. -/
def encodeReport (rep : SyncReport) : Json :=
  Json.obj
    [("totalDocuments", Json.num rep.totalDocuments),
     ("successful", Json.num rep.successful),
     ("failed", Json.num rep.failed),
     ("dryRun", Json.num rep.dryRun),
     ("results", Json.arr (rep.results.map encodeItemResult))]

/-- A row of the `dms_sync_logs` table as `getDMSSyncStatus` reads it. -/
structure SyncLogRow where
  action : String
  dms_system_id : Option String
  success : Nat
  failed : Nat
  total : Nat
  created_at : Nat
deriving DecidableEq, Repr

/-- Serialization of a sync log row. -/
def encodeLogRow (l : SyncLogRow) : Json :=
  Json.obj
    ([("action", Json.str l.action)] ++
     optField "dms_system_id" (l.dms_system_id.map Json.str) ++
     [("success", Json.num l.success),
      ("failed", Json.num l.failed),
      ("total", Json.num l.total),
      ("created_at", Json.num l.created_at)])

/-- Insertion step of the descending-`created_at` ordering used by
`.order('created_at', descending).limit(10)`. -/
def insertByCreatedDesc (row : SyncLogRow) : List SyncLogRow → List SyncLogRow
  | [] => [row]
  | x :: xs =>
    if x.created_at ≤ row.created_at then row :: x :: xs
    else x :: insertByCreatedDesc row xs

/-- Sort the log rows by `created_at`, newest first. -/
def sortByCreatedDesc : List SyncLogRow → List SyncLogRow
  | [] => []
  | x :: xs => insertByCreatedDesc x (sortByCreatedDesc xs)

/-- The `getDMSSyncStatus` helper: the ten most recent log rows for the
system, with `lastSync` taken from the newest one (`syncLogs[0]?.created_at`,
whose key is dropped when there is none). -/
def getDMSSyncStatus (logs : List SyncLogRow) (dmsSystemId : Option String) :
    Json :=
  let syncLogs :=
    (sortByCreatedDesc (logs.filter (fun l => decide (l.dms_system_id = dmsSystemId)))).take 10
  Json.obj
    (optField "dmsSystemId" (dmsSystemId.map Json.str) ++
     optField "lastSync" ((syncLogs.head?).map (fun l => Json.num l.created_at)) ++
     [("recentSyncs", Json.arr (syncLogs.map encodeLogRow)),
      ("status", Json.str "active")])

/-- A `DMSSyncRequest` body. -/
structure DMSSyncRequest where
  action : String
  dmsSystemId : Option String := none
  documentIds : Option (List Nat) := none
  since : Option Nat := none
  options : SyncOptions := {}
deriving Repr

/-- The `switch (action)` dispatch inside `serve`: each arm either
produces the `result` value or throws (the `default` arm throwing
`Invalid sync action`).  `full_sync` runs push then pull sequentially on
the same table. -/
def dispatchSyncAction (req : DMSSyncRequest) (store : List Doc)
    (logs : List SyncLogRow) (dl : Doc → Except String String)
    (ul : Nat → Doc → String → Except String UploadResult)
    (fetchDMS : Option Nat → List ExtDoc) (now n0 nextId : Nat) :
    Except String Json :=
  if req.action = "push" then
    (pushDocumentsToDMS store req.dmsSystemId req.documentIds req.options dl ul now n0).map
      (fun out => encodeReport out.1)
  else if req.action = "pull" then
    (pullDocumentsFromDMS store req.dmsSystemId req.since req.options fetchDMS now nextId).map
      (fun out => encodeReport out.1)
  else if req.action = "full_sync" then
    (pushDocumentsToDMS store req.dmsSystemId req.documentIds req.options dl ul now n0).bind
      (fun pushOut =>
        (pullDocumentsFromDMS pushOut.2.1 req.dmsSystemId req.since req.options fetchDMS now nextId).map
          (fun pullOut =>
            Json.obj [("push", encodeReport pushOut.1), ("pull", encodeReport pullOut.1)]))
  else if req.action = "status" then
    Except.ok (getDMSSyncStatus logs req.dmsSystemId)
  else
    Except.error ("Invalid sync action: " ++ req.action)

/-- The HTTP response of the `serve` handler: on success a 200 with
`{success: true, action, dmsSystemId, result, timestamp}` (the
`dmsSystemId` key dropped by `JSON.stringify` when the request carried
none), and in the catch block a 400 with
`{success: false, error, timestamp}`.  The audit insert
(`logSyncOperation`) never throws (its error result is not inspected) and
does not affect the response. -/
def serve (req : DMSSyncRequest) (store : List Doc) (logs : List SyncLogRow)
    (dl : Doc → Except String String)
    (ul : Nat → Doc → String → Except String UploadResult)
    (fetchDMS : Option Nat → List ExtDoc) (now n0 nextId : Nat) :
    Json × Nat :=
  match dispatchSyncAction req store logs dl ul fetchDMS now n0 nextId with
  | Except.ok result =>
    (Json.obj
      ([("success", Json.jbool true), ("action", Json.str req.action)] ++
       optField "dmsSystemId" (req.dmsSystemId.map Json.str) ++
       [("result", result), ("timestamp", Json.num now)]), 200)
  | Except.error m =>
    (Json.obj
      [("success", Json.jbool false), ("error", Json.str m),
       ("timestamp", Json.num now)], 400)

/-- The top-level key list of a JSON object (used to state response-shape
properties). -/
def topKeys : Json → List String
  | Json.obj fields => fields.map (fun f => f.1)
  | _ => []

/-- Whether the push processing of a candidate document succeeds, for a
run whose upload outcome depends only on the document (the download
succeeds and the upload succeeds, outside a dry run).  This is the
specification-side characterisation of the loop's success branch. -/
def itemSucceeds (opts : SyncOptions) (dl : Doc → Except String String)
    (u : Doc → String → Except String UploadResult) (d : Doc) : Bool :=
  !opts.dryRun &&
  (match dl d with
   | Except.ok b =>
     (match u d b with
      | Except.ok _ => true
      | Except.error _ => false)
   | Except.error _ => false)

/-! ## Concrete rows and requests used by witnesses and counterexamples -/

/-- A freshly created draft application row. -/
def appDraft : Application :=
  { status := ApplicationStatus.draft
    submitted_at := none
    review_started_at := none
    decision_date := none
    expiry_date := none
    form_data := "f"
    metadata := "m"
    created_at := 0
    version := 1 }

/-- The row `appDraft` after an accepted draft-to-submitted update at time 5. -/
def appDraftSub5 : Application :=
  { appDraft with
    status := ApplicationStatus.submitted
    submitted_at := some 5
    version := 2 }

/-- The row `appDraft` after an accepted form-data-only update. -/
def appDraftG : Application :=
  { appDraft with form_data := "g", version := 2 }

/-- A submitted application row awaiting a decision. -/
def appSubmitted : Application :=
  { status := ApplicationStatus.submitted
    submitted_at := some 5
    review_started_at := none
    decision_date := none
    expiry_date := none
    form_data := "f"
    metadata := "m"
    created_at := 0
    version := 3 }

/-- The row `appSubmitted` after the direct update to `approved` at time 10. -/
def appSubApproved : Application :=
  { appSubmitted with
    status := ApplicationStatus.approved
    decision_date := some 10
    version := 4 }

/-- A storage-download oracle that always yields a blob. -/
def dlOk : Doc → Except String String := fun _ => Except.ok "B"

/-- A fixed upload result. -/
def upOk : UploadResult := { externalId := "E", url := "U", metadata := "SP" }

/-- An upload oracle that succeeds on every call, independent of the call
counter. -/
def ulDet : Doc → String → Except String UploadResult :=
  fun _ _ => Except.ok upOk

/-- The call-counted form of `ulDet`. -/
def ul0 : Nat → Doc → String → Except String UploadResult := fun _ => ulDet

/-- An external fetch that reports no changed documents (the behaviour of
the placeholder `fetchDocumentsFromDMS`). -/
def fetchNone : Option Nat → List ExtDoc := fun _ => []

/-- A local document that has never been synced (candidate for push). -/
def pushDoc (i : Nat) : Doc :=
  { id := i
    file_name := "f"
    file_size := 1
    file_type := "pdf"
    storage_path := "p"
    metadata := ""
    external_dms_id := none
    external_dms_url := none
    needs_sync := false
    synced_at := none
    sync_metadata := none
    updated_at := 0 }

/-- The three-document table of the push retry scenario. -/
def c1store : List Doc := [pushDoc 1, pushDoc 2, pushDoc 3]

/-- An upload oracle whose call for document 2 — the second upload request
of the run, call counter 1 — fails the way a 503 surfaces
(`SharePoint upload failed`), while every other call, including any
hypothetical retry for document 2, succeeds. -/
def c1ul : Nat → Doc → String → Except String UploadResult :=
  fun n d _ =>
    if d.id = 2 ∧ n = 1 then
      Except.error "SharePoint upload failed: Service Unavailable"
    else Except.ok upOk

/-- The per-item results of the push retry scenario. -/
def c1results : List ItemResult :=
  [{ documentId := some 1, externalId := some "E",
     status := ItemStatus.success, action := some "synced" },
   { documentId := some 2, status := ItemStatus.error,
     errorMsg := some "SharePoint upload failed: Service Unavailable" },
   { documentId := some 3, externalId := some "E",
     status := ItemStatus.success, action := some "synced" }]

/-- The report of the push retry scenario. -/
def c1report : SyncReport := mkSyncReport 3 c1results

/-- The table after the push retry scenario: documents 1 and 3 updated,
document 2 untouched. -/
def c1storeAfter : List Doc :=
  [applySyncUpdate (pushDoc 1) upOk 50, pushDoc 2,
   applySyncUpdate (pushDoc 3) upOk 50]

/-- A local document already linked to external document `X`. -/
def c2local : Doc :=
  { id := 4
    file_name := "local.pdf"
    file_size := 10
    file_type := "pdf"
    storage_path := "sp"
    metadata := "lm"
    external_dms_id := some "X"
    external_dms_url := none
    needs_sync := false
    synced_at := none
    sync_metadata := none
    updated_at := 0 }

/-- The remote descriptor for external document `X`, with diverged fields. -/
def c2ext : ExtDoc :=
  { id := "X", name := "remote.pdf", size := 20, tp := "docx", metadata := "rm" }

/-- An external fetch returning exactly the diverged descriptor. -/
def c2fetch : Option Nat → List ExtDoc := fun _ => [c2ext]

/-- The report of the conflict scenario pull. -/
def c2report : SyncReport :=
  mkSyncReport 1
    [{ documentId := some 4, externalId := some "X",
       status := ItemStatus.success, action := some "updated" }]

/-- A document that was already pushed (external id set, not dirty). -/
def c8synced : Doc :=
  { pushDoc 7 with external_dms_id := some "E0", needs_sync := false }

/-- The report of one successful explicit-id push of `c8synced`. -/
def c8rep : SyncReport :=
  mkSyncReport 1
    [{ documentId := some 7, externalId := some "E",
       status := ItemStatus.success, action := some "synced" }]

/-- The table after the first explicit-id push of `c8synced`. -/
def c8st1 : List Doc := [applySyncUpdate c8synced upOk 20]

/-- The table after the second explicit-id push of `c8synced`. -/
def c8st2 : List Doc := [applySyncUpdate (applySyncUpdate c8synced upOk 20) upOk 21]

/-- The report of the first default-scope push of `pushDoc 9`. -/
def c8wrep1 : SyncReport :=
  mkSyncReport 1
    [{ documentId := some 9, externalId := some "E",
       status := ItemStatus.success, action := some "synced" }]

/-- The table after the first default-scope push of `pushDoc 9`. -/
def c8wst1 : List Doc := [applySyncUpdate (pushDoc 9) upOk 30]

/-- A sync request naming a DMS system that is not configured. -/
def c9req : DMSSyncRequest := { action := "push", dmsSystemId := some "nope" }

/-! ## Lemmas about the status trigger -/

theorem applyStatusTimestamps_form_data (o n : Application) (now : Nat) :
    (applyStatusTimestamps o n now).form_data = n.form_data := by
  unfold applyStatusTimestamps
  repeat' split
  all_goals rfl

theorem applyStatusTimestamps_status (o n : Application) (now : Nat) :
    (applyStatusTimestamps o n now).status = n.status := by
  unfold applyStatusTimestamps
  repeat' split
  all_goals rfl

theorem applyStatusTimestamps_version (o n : Application) (now : Nat) :
    (applyStatusTimestamps o n now).version = n.version := by
  unfold applyStatusTimestamps
  repeat' split
  all_goals rfl

theorem applyStatusTimestamps_submitted_at (o n : Application) (now : Nat) :
    (applyStatusTimestamps o n now).submitted_at =
      if n.status = ApplicationStatus.submitted ∧ o.status = ApplicationStatus.draft
      then some now else n.submitted_at := by
  unfold applyStatusTimestamps
  repeat' split
  all_goals simp_all

theorem applyStatusTimestamps_decision_date (o n : Application) (now : Nat) :
    (applyStatusTimestamps o n now).decision_date =
      if (n.status = ApplicationStatus.approved ∨ n.status = ApplicationStatus.rejected)
          ∧ n.decision_date = none
      then some now else n.decision_date := by
  unfold applyStatusTimestamps
  repeat' split
  all_goals simp_all

theorem handle_form_data (o n : Application) (now : Nat) :
    (handle_application_status_change o n now).form_data = n.form_data := by
  simp only [handle_application_status_change]
  split
  all_goals simp [applyStatusTimestamps_form_data]

theorem handle_status (o n : Application) (now : Nat) :
    (handle_application_status_change o n now).status = n.status := by
  simp only [handle_application_status_change]
  split
  all_goals simp [applyStatusTimestamps_status]

theorem handle_submitted_at (o n : Application) (now : Nat) :
    (handle_application_status_change o n now).submitted_at =
      if n.status = ApplicationStatus.submitted ∧ o.status = ApplicationStatus.draft
      then some now else n.submitted_at := by
  simp only [handle_application_status_change]
  split
  all_goals simp [applyStatusTimestamps_submitted_at]

theorem handle_decision_date (o n : Application) (now : Nat) :
    (handle_application_status_change o n now).decision_date =
      if (n.status = ApplicationStatus.approved ∨ n.status = ApplicationStatus.rejected)
          ∧ n.decision_date = none
      then some now else n.decision_date := by
  simp only [handle_application_status_change]
  split
  all_goals simp [applyStatusTimestamps_decision_date]

theorem handle_version (o n : Application) (now : Nat) :
    (handle_application_status_change o n now).version =
      if o.form_data ≠ n.form_data ∨ o.status ≠ n.status
      then o.version + 1 else n.version := by
  simp only [handle_application_status_change]
  split
  case isTrue hc =>
    rw [applyStatusTimestamps_form_data, applyStatusTimestamps_status] at hc
    rw [if_pos hc]
  case isFalse hc =>
    rw [applyStatusTimestamps_form_data, applyStatusTimestamps_status] at hc
    rw [if_neg hc, applyStatusTimestamps_version]

theorem updateApplication_some (a : Application) (p : AppPatch) (now : Nat)
    (a' : Application) (h : updateApplication a p now = some a') :
    a' = handle_application_status_change a (applyPatch a p) now ∧
    valid_dates a' = true ∧ valid_status_transitions a' = true := by
  simp only [updateApplication] at h
  split at h
  case isTrue hb =>
    injection h with h
    subst h
    exact ⟨rfl, (Bool.and_eq_true _ _).mp hb |>.1, (Bool.and_eq_true _ _).mp hb |>.2⟩
  case isFalse => exact absurd h (by simp)

theorem updateApplication_form_data (a : Application) (p : AppPatch) (now : Nat)
    (a' : Application) (h : updateApplication a p now = some a') :
    a'.form_data = p.form_data.getD a.form_data := by
  obtain ⟨ha', -, -⟩ := updateApplication_some a p now a' h
  rw [ha', handle_form_data]
  rfl

theorem updateApplication_status (a : Application) (p : AppPatch) (now : Nat)
    (a' : Application) (h : updateApplication a p now = some a') :
    a'.status = p.status.getD a.status := by
  obtain ⟨ha', -, -⟩ := updateApplication_some a p now a' h
  rw [ha', handle_status]
  rfl

theorem version_step (a : Application) (p : AppPatch) (now : Nat)
    (a' : Application) (h : updateApplication a p now = some a') :
    a'.version =
      if a'.form_data ≠ a.form_data ∨ a'.status ≠ a.status
      then a.version + 1 else a.version := by
  obtain ⟨ha', -, -⟩ := updateApplication_some a p now a' h
  have hfd := updateApplication_form_data a p now a' h
  have hst := updateApplication_status a p now a' h
  have hfd' : (applyPatch a p).form_data = a'.form_data := by
    rw [hfd]; rfl
  have hst' : (applyPatch a p).status = a'.status := by
    rw [hst]; rfl
  have hv := handle_version a (applyPatch a p) now
  rw [← ha', hfd', hst'] at hv
  have hvv : (applyPatch a p).version = a.version := rfl
  rw [hvv] at hv
  by_cases hc : a'.form_data ≠ a.form_data ∨ a'.status ≠ a.status
  · rw [if_pos (hc.imp Ne.symm Ne.symm)] at hv
    rw [if_pos hc]
    exact hv
  · have hc' : ¬(a.form_data ≠ a'.form_data ∨ a.status ≠ a'.status) :=
      fun hor => hc (hor.imp Ne.symm Ne.symm)
    rw [if_neg hc'] at hv
    rw [if_neg hc]
    exact hv

theorem version_accum (muts : List (AppPatch × Nat)) :
    ∀ (a b : Application), allSignificant a muts →
      applyMutations a muts = some b → b.version = a.version + muts.length := by
  induction muts with
  | nil =>
    intro a b _ hm
    simp only [applyMutations] at hm
    injection hm with hm
    subst hm
    rfl
  | cons pt rest ih =>
    intro a b hs hm
    obtain ⟨p, t⟩ := pt
    simp only [applyMutations] at hm
    obtain ⟨hsig, hrec⟩ := hs
    cases hu : updateApplication a p t with
    | none => rw [hu] at hm; exact absurd hm (by simp)
    | some a1 =>
      rw [hu] at hm
      have hv1 : a1.version = a.version + 1 := by
        have hstep := version_step a p t a1 hu
        have hfd := updateApplication_form_data a p t a1 hu
        have hst := updateApplication_status a p t a1 hu
        rw [if_pos ?_] at hstep
        · exact hstep
        · cases hsig with
          | inl hf => exact Or.inl (by rw [hfd]; exact hf)
          | inr hs2 => exact Or.inr (by rw [hst]; exact hs2)
      have := ih a1 b (hrec a1 hu) hm
      rw [this, hv1]
      simp [Nat.add_assoc, Nat.add_comm 1 rest.length, List.length_cons]

/-! ## Claims about the status workflow -/

/-- C3 counterexample: the direct update of a submitted application to
`approved` (skipping `under_review`) is accepted by the trigger and the
CHECK constraints, with the decision date derived and the version bumped;
it does not fail, and no `InvalidTransitionError` or `ValidationError`
exists in the code. -/
theorem c3_counterexample_submitted_to_approved_accepted :
    updateApplication appSubmitted { status := some ApplicationStatus.approved } 10 =
      some appSubApproved := by decide

/-- C3 (amended): the status-change trigger performs no transition
validation at all.  Any update of a submitted application straight to
`approved` is accepted (provided the row already satisfies the date CHECK
constraint and the decision time is not before the submission time): the
trigger merely derives `decision_date` and bumps the version.  No
`InvalidTransitionError` or `ValidationError` is raised anywhere. -/
theorem c3_amended_no_transition_validation (a : Application) (s now : Nat)
    (hst : a.status = ApplicationStatus.submitted)
    (hsub : a.submitted_at = some s)
    (hdec : a.decision_date = none)
    (hvd : valid_dates a = true)
    (hnow : s ≤ now) :
    updateApplication a { status := some ApplicationStatus.approved } now =
      some { a with
             status := ApplicationStatus.approved
             decision_date := some now
             version := a.version + 1 } := by
  have hap : applyPatch a { status := some ApplicationStatus.approved } =
      { a with status := ApplicationStatus.approved } := rfl
  have hn1 : handle_application_status_change a
      { a with status := ApplicationStatus.approved } now =
      { a with
        status := ApplicationStatus.approved
        decision_date := some now
        version := a.version + 1 } := by
    simp [handle_application_status_change, applyStatusTimestamps, hst, hdec]
  have h1 : a.created_at ≤ s := by
    unfold valid_dates at hvd
    rw [hsub] at hvd
    simp only [Bool.and_eq_true, decide_eq_true_eq] at hvd
    exact hvd.1.1
  have h3 : (match a.expiry_date with
      | none => true
      | some e => decide (a.created_at < e)) = true := by
    unfold valid_dates at hvd
    simp only [Bool.and_eq_true] at hvd
    exact hvd.2
  simp only [updateApplication, hap, hn1]
  rw [if_pos]
  simp [valid_dates, valid_status_transitions, hsub, h1, h3, hnow]

/-- C3 amended witness at a concrete row. -/
theorem c3_amended_witness :
    appSubmitted.status = ApplicationStatus.submitted ∧
    appSubmitted.submitted_at = some 5 ∧
    appSubmitted.decision_date = none ∧
    valid_dates appSubmitted = true ∧
    5 ≤ 10 ∧
    updateApplication appSubmitted { status := some ApplicationStatus.approved } 10 =
      some { appSubmitted with
             status := ApplicationStatus.approved
             decision_date := some 10
             version := appSubmitted.version + 1 } :=
  ⟨by decide, by decide, by decide, by decide, by decide,
   c3_amended_no_transition_validation appSubmitted 5 10 (by decide) (by decide)
     (by decide) (by decide) (by decide)⟩

/-- C4: an accepted update bumps `version` by exactly 1 when and only when
it changes `form_data` or `status`, and a run of N accepted significant
mutations raises `version` by exactly N. -/
theorem c4_version_increment (a : Application) (a' : Application) (p : AppPatch)
    (now : Nat) (h : updateApplication a p now = some a') :
    (a'.version =
      if a'.form_data ≠ a.form_data ∨ a'.status ≠ a.status
      then a.version + 1 else a.version) ∧
    (∀ muts b, allSignificant a muts → applyMutations a muts = some b →
      b.version = a.version + muts.length) :=
  ⟨version_step a p now a' h,
   fun muts b hs hm => version_accum muts a b hs hm⟩

/-- C4 witness at a concrete row. -/
theorem c4_version_increment_witness :
    updateApplication appDraft { form_data := some "g" } 7 = some appDraftG ∧
    ((appDraftG.version =
       if appDraftG.form_data ≠ appDraft.form_data ∨ appDraftG.status ≠ appDraft.status
       then appDraft.version + 1 else appDraft.version) ∧
     (∀ muts b, allSignificant appDraft muts → applyMutations appDraft muts = some b →
       b.version = appDraft.version + muts.length)) :=
  ⟨by decide,
   c4_version_increment appDraft appDraftG { form_data := some "g" } 7 (by decide)⟩

/-- C5: on any accepted update of a row satisfying the submitted-at
invariant, the invariant is preserved, the first accepted transition out
of `draft` stamps `submitted_at` with the current time, and a
`submitted_at` that is already set is carried over unchanged. -/
theorem c5_submitted_at_lifecycle (a a' : Application) (p : AppPatch) (now : Nat)
    (hInv : submittedIffNotDraft a) (h : updateApplication a p now = some a') :
    submittedIffNotDraft a' ∧
    (a.status = ApplicationStatus.draft → a'.status ≠ ApplicationStatus.draft →
      a'.submitted_at = some now) ∧
    (∀ t, a.submitted_at = some t → a'.submitted_at = some t) := by
  obtain ⟨ha', hvd, hvst⟩ := updateApplication_some a p now a' h
  have hInv' : submittedIffNotDraft a' := by
    simp only [valid_status_transitions, Bool.or_eq_true, Bool.and_eq_true,
      decide_eq_true_eq] at hvst
    unfold submittedIffNotDraft
    rcases hvst with ⟨h1, h2⟩ | ⟨h1, h2⟩
    · exact ⟨fun hne => absurd h2 hne, fun hnd => absurd h1 hnd⟩
    · exact ⟨fun _ => h1, fun _ => h2⟩
  have hsub_eq : a'.submitted_at =
      if (applyPatch a p).status = ApplicationStatus.submitted ∧
         a.status = ApplicationStatus.draft
      then some now else a.submitted_at := by
    rw [ha', handle_submitted_at]
    rfl
  refine ⟨hInv', ?_, ?_⟩
  · intro hd hnd
    unfold submittedIffNotDraft at hInv hInv'
    by_cases hcond : (applyPatch a p).status = ApplicationStatus.submitted ∧
        a.status = ApplicationStatus.draft
    · rw [hsub_eq, if_pos hcond]
    · exfalso
      have hnone : a.submitted_at = none := by
        by_contra hne
        exact (hInv.mp hne) hd
      have hx : a'.submitted_at = none := by
        rw [hsub_eq, if_neg hcond, hnone]
      exact (hInv'.mpr hnd) hx
  · intro t ht
    unfold submittedIffNotDraft at hInv
    have hnd : a.status ≠ ApplicationStatus.draft := hInv.mp (by rw [ht]; simp)
    rw [hsub_eq, if_neg (fun hc => hnd hc.2)]
    exact ht

/-- C5 witness at a concrete row. -/
theorem c5_submitted_at_lifecycle_witness :
    submittedIffNotDraft appDraft ∧
    updateApplication appDraft { status := some ApplicationStatus.submitted } 5 =
      some appDraftSub5 ∧
    (submittedIffNotDraft appDraftSub5 ∧
     (appDraft.status = ApplicationStatus.draft →
       appDraftSub5.status ≠ ApplicationStatus.draft →
       appDraftSub5.submitted_at = some 5) ∧
     (∀ t, appDraft.submitted_at = some t → appDraftSub5.submitted_at = some t)) :=
  ⟨by decide, by decide,
   c5_submitted_at_lifecycle appDraft appDraftSub5
     { status := some ApplicationStatus.submitted } 5 (by decide) (by decide)⟩

/-- C6: on any accepted update, a `decision_date` that is already set is
carried over unchanged (so re-entering `approved` or `rejected`, for
example after an appeal, cannot reset it); when it is unset it is stamped
with the current time exactly on entry into `approved` or `rejected`, and
stays unset on updates into any other status. -/
theorem c6_decision_date_once (a a' : Application) (p : AppPatch) (now : Nat)
    (h : updateApplication a p now = some a') :
    (∀ d, a.decision_date = some d → a'.decision_date = some d) ∧
    (a.decision_date = none →
      (a'.status = ApplicationStatus.approved ∨ a'.status = ApplicationStatus.rejected) →
      a'.decision_date = some now) ∧
    (a.decision_date = none →
      ¬(a'.status = ApplicationStatus.approved ∨ a'.status = ApplicationStatus.rejected) →
      a'.decision_date = none) := by
  obtain ⟨ha', -, -⟩ := updateApplication_some a p now a' h
  have hst : a'.status = (applyPatch a p).status := by
    rw [ha', handle_status]
  have hdec_eq : a'.decision_date =
      if ((applyPatch a p).status = ApplicationStatus.approved ∨
          (applyPatch a p).status = ApplicationStatus.rejected) ∧
         a.decision_date = none
      then some now else a.decision_date := by
    rw [ha', handle_decision_date]
    rfl
  refine ⟨?_, ?_, ?_⟩
  · intro d hd
    rw [hdec_eq, if_neg (fun hc => by rw [hd] at hc; exact Option.some_ne_none d hc.2), hd]
  · intro hnone hor
    rw [hst] at hor
    rw [hdec_eq, if_pos ⟨hor, hnone⟩]
  · intro hnone hnor
    rw [hst] at hnor
    rw [hdec_eq, if_neg (fun hc => hnor hc.1)]
    exact hnone

/-- C6 witness at a concrete row. -/
theorem c6_decision_date_once_witness :
    updateApplication appSubmitted { status := some ApplicationStatus.approved } 10 =
      some appSubApproved ∧
    ((∀ d, appSubmitted.decision_date = some d → appSubApproved.decision_date = some d) ∧
     (appSubmitted.decision_date = none →
       (appSubApproved.status = ApplicationStatus.approved ∨
        appSubApproved.status = ApplicationStatus.rejected) →
       appSubApproved.decision_date = some 10) ∧
     (appSubmitted.decision_date = none →
       ¬(appSubApproved.status = ApplicationStatus.approved ∨
         appSubApproved.status = ApplicationStatus.rejected) →
       appSubApproved.decision_date = none)) :=
  ⟨by decide,
   c6_decision_date_once appSubmitted appSubApproved
     { status := some ApplicationStatus.approved } 10 (by decide)⟩

/-! ## Lemmas about the sync loops -/

theorem processPushItem_documentId (opts : SyncOptions) (dl : Doc → Except String String)
    (ul : Nat → Doc → String → Except String UploadResult) (now : Nat)
    (doc : Doc) (store : List Doc) (n : Nat) :
    (processPushItem opts dl ul now doc store n).1.documentId = some doc.id := by
  unfold processPushItem
  repeat' split
  all_goals rfl

theorem pushItems_map_documentId (opts : SyncOptions) (dl : Doc → Except String String)
    (ul : Nat → Doc → String → Except String UploadResult) (now : Nat) :
    ∀ (cands store : List Doc) (n : Nat),
      ((pushItems opts dl ul now cands store n).1).map (fun r => r.documentId) =
        cands.map (fun d => some d.id) := by
  intro cands
  induction cands with
  | nil => intro store n; rfl
  | cons c cs ih =>
    intro store n
    simp only [pushItems, List.map_cons]
    rw [processPushItem_documentId, ih]

theorem pushItems_length (opts : SyncOptions) (dl : Doc → Except String String)
    (ul : Nat → Doc → String → Except String UploadResult) (now : Nat)
    (cands store : List Doc) (n : Nat) :
    (pushItems opts dl ul now cands store n).1.length = cands.length := by
  have h := pushItems_map_documentId opts dl ul now cands store n
  have := congrArg List.length h
  simpa using this

theorem processPullItem_externalId (opts : SyncOptions) (now : Nat) (ext : ExtDoc)
    (store : List Doc) (nextId : Nat) :
    (processPullItem opts now ext store nextId).1.externalId = some ext.id := by
  unfold processPullItem
  repeat' split
  all_goals rfl

theorem pullItems_map_externalId (opts : SyncOptions) (now : Nat) :
    ∀ (exts : List ExtDoc) (store : List Doc) (nextId : Nat),
      ((pullItems opts now exts store nextId).1).map (fun r => r.externalId) =
        exts.map (fun e => some e.id) := by
  intro exts
  induction exts with
  | nil => intro store nextId; rfl
  | cons e es ih =>
    intro store nextId
    simp only [pullItems, List.map_cons]
    rw [processPullItem_externalId, ih]

theorem pullItems_length (opts : SyncOptions) (now : Nat) (exts : List ExtDoc)
    (store : List Doc) (nextId : Nat) :
    (pullItems opts now exts store nextId).1.length = exts.length := by
  have h := pullItems_map_externalId opts now exts store nextId
  have := congrArg List.length h
  simpa using this

theorem itemStatus_filter_partition (rs : List ItemResult) :
    (rs.filter (fun r => decide (r.status = ItemStatus.success))).length +
    (rs.filter (fun r => decide (r.status = ItemStatus.error))).length +
    (rs.filter (fun r => decide (r.status = ItemStatus.dry_run))).length =
    rs.length := by
  induction rs with
  | nil => rfl
  | cons r rs ih =>
    cases hs : r.status
    all_goals simp [List.filter_cons, hs]
    all_goals omega

theorem pushDocumentsToDMS_ok (store : List Doc) (sysId : Option String)
    (ids : Option (List Nat)) (opts : SyncOptions) (dl : Doc → Except String String)
    (ul : Nat → Doc → String → Except String UploadResult) (now n0 : Nat)
    (rep : SyncReport) (st : List Doc) (n : Nat)
    (h : pushDocumentsToDMS store sysId ids opts dl ul now n0 = Except.ok (rep, st, n)) :
    rep = mkSyncReport (findDocumentsNeedingSync store ids).length
            (pushItems opts dl ul now (findDocumentsNeedingSync store ids) store n0).1 ∧
    st = (pushItems opts dl ul now (findDocumentsNeedingSync store ids) store n0).2.1 ∧
    n = (pushItems opts dl ul now (findDocumentsNeedingSync store ids) store n0).2.2 := by
  cases hc : selectDMSConfig sysId with
  | none =>
    simp only [pushDocumentsToDMS, hc] at h
    exact absurd h (by simp)
  | some cfg =>
    simp only [pushDocumentsToDMS, hc, Except.ok.injEq, Prod.mk.injEq] at h
    exact ⟨h.1.symm, h.2.1.symm, h.2.2.symm⟩

theorem pullDocumentsFromDMS_ok (store : List Doc) (sysId : Option String)
    (since : Option Nat) (opts : SyncOptions) (fetchDMS : Option Nat → List ExtDoc)
    (now nextId : Nat) (rep : SyncReport) (st : List Doc) (n : Nat)
    (h : pullDocumentsFromDMS store sysId since opts fetchDMS now nextId =
          Except.ok (rep, st, n)) :
    rep = mkSyncReport (fetchDMS since).length
            (pullItems opts now (fetchDMS since) store nextId).1 ∧
    st = (pullItems opts now (fetchDMS since) store nextId).2.1 ∧
    n = (pullItems opts now (fetchDMS since) store nextId).2.2 := by
  cases hc : selectDMSConfig sysId with
  | none =>
    simp only [pullDocumentsFromDMS, hc] at h
    exact absurd h (by simp)
  | some cfg =>
    simp only [pullDocumentsFromDMS, hc, Except.ok.injEq, Prod.mk.injEq] at h
    exact ⟨h.1.symm, h.2.1.symm, h.2.2.symm⟩

theorem pushItems_counter_bound (opts : SyncOptions) (dl : Doc → Except String String)
    (ul : Nat → Doc → String → Except String UploadResult) (now : Nat) :
    ∀ (cands store : List Doc) (n0 : Nat),
      (pushItems opts dl ul now cands store n0).2.2 ≤ n0 + cands.length := by
  intro cands
  induction cands with
  | nil => intro store n0; simp [pushItems]
  | cons c cs ih =>
    intro store n0
    have hstep : (processPushItem opts dl ul now c store n0).2.2 ≤ n0 + 1 := by
      unfold processPushItem
      repeat' split
      all_goals simp
    simp only [pushItems]
    calc (pushItems opts dl ul now cs
            (processPushItem opts dl ul now c store n0).2.1
            (processPushItem opts dl ul now c store n0).2.2).2.2
        ≤ (processPushItem opts dl ul now c store n0).2.2 + cs.length := ih _ _
      _ ≤ n0 + 1 + cs.length := by omega
      _ = n0 + (c :: cs).length := by simp [List.length_cons]; omega

theorem pushItems_success_count (opts : SyncOptions) (dl : Doc → Except String String)
    (u : Doc → String → Except String UploadResult) (now : Nat) :
    ∀ (cands store : List Doc) (n : Nat),
      (((pushItems opts dl (fun _ => u) now cands store n).1).filter
        (fun r => decide (r.status = ItemStatus.success))).length =
      (cands.filter (itemSucceeds opts dl u)).length := by
  intro cands
  induction cands with
  | nil => intro store n; rfl
  | cons c cs ih =>
    intro store n
    by_cases hdry : opts.dryRun
    · simp only [pushItems, processPushItem, if_pos hdry]
      simp [List.filter_cons, itemSucceeds, hdry, ih]
    · cases hdl : dl c with
      | error m =>
        simp only [pushItems, processPushItem, if_neg hdry, hdl]
        simp [List.filter_cons, itemSucceeds, hdry, hdl, ih]
      | ok blob =>
        cases hu : u c blob with
        | error m =>
          simp only [pushItems, processPushItem, if_neg hdry, hdl]
          simp [List.filter_cons, itemSucceeds, hdry, hdl, hu, ih]
        | ok r =>
          simp only [pushItems, processPushItem, if_neg hdry, hdl]
          simp [List.filter_cons, itemSucceeds, hdry, hdl, hu, ih]

theorem applySyncUpdate_not_ready (d : Doc) (r : UploadResult) (now : Nat) :
    needsSyncPred (applySyncUpdate d r now) = false := by
  simp [needsSyncPred, applySyncUpdate]

theorem pushItems_clears_ready (opts : SyncOptions) (dl : Doc → Except String String)
    (u : Doc → String → Except String UploadResult) (now : Nat) :
    ∀ (cands store : List Doc) (n : Nat),
      (∀ d ∈ store, needsSyncPred d = true → itemSucceeds opts dl u d = true →
        d ∈ cands) →
      ∀ d ∈ (pushItems opts dl (fun _ => u) now cands store n).2.1,
        needsSyncPred d = true → itemSucceeds opts dl u d = true → False := by
  intro cands
  induction cands with
  | nil =>
    intro store n hinv d hd hp hs
    simp only [pushItems] at hd
    exact absurd (hinv d hd hp hs) (List.not_mem_nil d)
  | cons c cs ih =>
    intro store n hinv
    by_cases hdry : opts.dryRun
    · intro d hd hp hs
      simp [itemSucceeds, hdry] at hs
    · cases hdl : dl c with
      | error m =>
        simp only [pushItems, processPushItem, if_neg hdry, hdl]
        apply ih
        intro d hd hp hs
        rcases List.mem_cons.mp (hinv d hd hp hs) with hdc | hmem
        · subst hdc
          simp [itemSucceeds, hdry, hdl] at hs
        · exact hmem
      | ok blob =>
        cases hu : u c blob with
        | error m =>
          simp only [pushItems, processPushItem, if_neg hdry, hdl, hu]
          apply ih
          intro d hd hp hs
          rcases List.mem_cons.mp (hinv d hd hp hs) with hdc | hmem
          · subst hdc
            simp [itemSucceeds, hdry, hdl, hu] at hs
          · exact hmem
        | ok r =>
          simp only [pushItems, processPushItem, if_neg hdry, hdl, hu]
          apply ih
          intro d hd hp hs
          obtain ⟨d0, hd0, hde⟩ := List.mem_map.mp hd
          by_cases hid : d0.id = c.id
          · rw [if_pos hid] at hde
            rw [← hde] at hp
            rw [applySyncUpdate_not_ready] at hp
            exact absurd hp (by simp)
          · rw [if_neg hid] at hde
            subst hde
            rcases List.mem_cons.mp (hinv d0 hd0 hp hs) with hdc | hmem
            · exact absurd (congrArg Doc.id hdc) hid
            · exact hmem

theorem processPullItem_opts (o1 o2 : SyncOptions) (h : o1.dryRun = o2.dryRun)
    (now : Nat) (ext : ExtDoc) (store : List Doc) (nextId : Nat) :
    processPullItem o1 now ext store nextId = processPullItem o2 now ext store nextId := by
  unfold processPullItem
  rw [h]

theorem pullItems_opts (o1 o2 : SyncOptions) (h : o1.dryRun = o2.dryRun) (now : Nat) :
    ∀ (exts : List ExtDoc) (store : List Doc) (nextId : Nat),
      pullItems o1 now exts store nextId = pullItems o2 now exts store nextId := by
  intro exts
  induction exts with
  | nil => intro store nextId; rfl
  | cons e es ih =>
    intro store nextId
    simp only [pullItems]
    rw [processPullItem_opts o1 o2 h, ih]

theorem pullDocumentsFromDMS_opts (store : List Doc) (sysId : Option String)
    (since : Option Nat) (o1 o2 : SyncOptions) (h : o1.dryRun = o2.dryRun)
    (fetchDMS : Option Nat → List ExtDoc) (now nextId : Nat) :
    pullDocumentsFromDMS store sysId since o1 fetchDMS now nextId =
      pullDocumentsFromDMS store sysId since o2 fetchDMS now nextId := by
  unfold pullDocumentsFromDMS
  cases selectDMSConfig sysId with
  | none => rfl
  | some cfg =>
    simp only
    rw [pullItems_opts o1 o2 h]

/-! ## Claims about the sync reconciler -/

/-- C1 counterexample: pushing three candidate documents where document 2's
upload request fails the way a 503 surfaces, the run makes exactly 3 upload
calls in total (one per candidate, final call counter 3 from 0) and records
document 2 as failed immediately, although the very next upload call for
document 2 would have succeeded — so no retry with backoff happens — and
the failed item records only the thrown message, no error kind, while the
configured `retryAttempts` is 3. -/
theorem c1_counterexample_no_retry :
    pushDocumentsToDMS c1store none none {} dlOk c1ul 50 0 =
      Except.ok (c1report, c1storeAfter, 3) ∧
    c1report.successful = 2 ∧ c1report.failed = 1 ∧
    c1results.map (fun r => r.errorMsg) =
      [none, some "SharePoint upload failed: Service Unavailable", none] ∧
    c1ul 3 (pushDoc 2) "B" = Except.ok upOk ∧
    getDMSConfigurations.map (fun c => c.syncSettings.retryAttempts) = [3] :=
  ⟨rfl, rfl, rfl, rfl, rfl, rfl⟩

/-- C1 (amended): the push loop makes at most one upload attempt per
candidate (the final call counter never exceeds the initial one plus the
number of candidates, so no retry ever happens); a failed upload is
recorded as the item's failure immediately with the thrown error message,
and the three-document scenario yields `successful: 2, failed: 1`. -/
theorem c1_amended_single_attempt :
    (∀ (opts : SyncOptions) (dl : Doc → Except String String)
       (ul : Nat → Doc → String → Except String UploadResult) (now : Nat)
       (cands store : List Doc) (n0 : Nat),
      (pushItems opts dl ul now cands store n0).2.2 ≤ n0 + cands.length) ∧
    pushDocumentsToDMS c1store none none {} dlOk c1ul 50 0 =
      Except.ok (c1report, c1storeAfter, 3) ∧
    c1report.successful = 2 ∧ c1report.failed = 1 :=
  ⟨fun opts dl ul now cands store n0 =>
    pushItems_counter_bound opts dl ul now cands store n0, rfl, rfl, rfl⟩

/-- C2 counterexample: a pull under the `local_wins` conflict policy still
overwrites the matched local document's fields with the remote descriptor's
(the policy option is dead: the file name changes from `local.pdf` to
`remote.pdf`). -/
theorem c2_counterexample_local_wins_overwritten :
    pullDocumentsFromDMS [c2local] none none
        { conflictResolution := some ConflictResolution.local_wins } c2fetch 9 100 =
      Except.ok (c2report, [applyPullUpdate c2local c2ext 9], 100) ∧
    (applyPullUpdate c2local c2ext 9).file_name = "remote.pdf" ∧
    c2local.file_name = "local.pdf" ∧
    (applyPullUpdate c2local c2ext 9).file_name ≠ c2local.file_name :=
  ⟨rfl, rfl, rfl, by decide⟩

/-- C2 (amended): the `conflictResolution` option is never consulted — pull
runs that differ only in that option produce identical results — and every
external descriptor that matches an existing local document unconditionally
overwrites the local fields with the remote ones (`remote_wins` behaviour
for every policy); no flag-for-review exists. -/
theorem c2_amended_conflict_policy_ignored (store : List Doc)
    (sysId : Option String) (since : Option Nat) (o1 o2 : SyncOptions)
    (fetchDMS : Option Nat → List ExtDoc) (now nid : Nat) (ext : ExtDoc) (d : Doc)
    (hdry : o1.dryRun = o2.dryRun) (h1 : o1.dryRun = false)
    (hfound : store.find? (fun x => decide (x.external_dms_id = some ext.id)) = some d) :
    pullDocumentsFromDMS store sysId since o1 fetchDMS now nid =
      pullDocumentsFromDMS store sysId since o2 fetchDMS now nid ∧
    (processPullItem o1 now ext store nid).2.1 =
      store.map (fun x => if x.id = d.id then applyPullUpdate x ext now else x) ∧
    (applyPullUpdate d ext now).file_name = ext.name ∧
    (applyPullUpdate d ext now).file_size = ext.size ∧
    (applyPullUpdate d ext now).file_type = ext.tp ∧
    (applyPullUpdate d ext now).metadata = ext.metadata := by
  refine ⟨pullDocumentsFromDMS_opts store sysId since o1 o2 hdry fetchDMS now nid,
    ?_, rfl, rfl, rfl, rfl⟩
  simp [processPullItem, h1, hfound]

/-- C2 amended witness: the conflict scenario with `local_wins` versus
`remote_wins`. -/
theorem c2_amended_witness :
    (({ conflictResolution := some ConflictResolution.local_wins } : SyncOptions).dryRun =
      ({ conflictResolution := some ConflictResolution.remote_wins } : SyncOptions).dryRun) ∧
    (({ conflictResolution := some ConflictResolution.local_wins } : SyncOptions).dryRun = false) ∧
    ([c2local].find? (fun x => decide (x.external_dms_id = some c2ext.id)) = some c2local) ∧
    (pullDocumentsFromDMS [c2local] none none
        { conflictResolution := some ConflictResolution.local_wins } c2fetch 9 100 =
      pullDocumentsFromDMS [c2local] none none
        { conflictResolution := some ConflictResolution.remote_wins } c2fetch 9 100 ∧
    (processPullItem { conflictResolution := some ConflictResolution.local_wins }
        9 c2ext [c2local] 100).2.1 =
      [c2local].map (fun x => if x.id = c2local.id then applyPullUpdate x c2ext 9 else x) ∧
    (applyPullUpdate c2local c2ext 9).file_name = c2ext.name ∧
    (applyPullUpdate c2local c2ext 9).file_size = c2ext.size ∧
    (applyPullUpdate c2local c2ext 9).file_type = c2ext.tp ∧
    (applyPullUpdate c2local c2ext 9).metadata = c2ext.metadata) :=
  ⟨rfl, rfl, rfl,
   c2_amended_conflict_policy_ignored [c2local] none none
     { conflictResolution := some ConflictResolution.local_wins }
     { conflictResolution := some ConflictResolution.remote_wins }
     c2fetch 9 100 c2ext c2local rfl rfl rfl⟩

/-- C7: in both sync loops every item — including every item after a failed
one — contributes exactly one entry, in order, to the per-item results
(push entries carry the document id, pull entries the external id), and a
run with the default system resolution always completes with a report
rather than aborting on an item failure. -/
theorem c7_item_failures_recorded_not_thrown :
    (∀ (opts : SyncOptions) (dl : Doc → Except String String)
       (ul : Nat → Doc → String → Except String UploadResult) (now : Nat)
       (cands store : List Doc) (n : Nat),
      ((pushItems opts dl ul now cands store n).1).map (fun r => r.documentId) =
        cands.map (fun d => some d.id)) ∧
    (∀ (opts : SyncOptions) (now : Nat) (exts : List ExtDoc) (store : List Doc)
       (nextId : Nat),
      ((pullItems opts now exts store nextId).1).map (fun r => r.externalId) =
        exts.map (fun e => some e.id)) ∧
    (∀ (store : List Doc) (ids : Option (List Nat)) (opts : SyncOptions)
       (dl : Doc → Except String String)
       (ul : Nat → Doc → String → Except String UploadResult) (now n0 : Nat),
      (pushDocumentsToDMS store none ids opts dl ul now n0).isOk = true) ∧
    (∀ (store : List Doc) (since : Option Nat) (opts : SyncOptions)
       (fetchDMS : Option Nat → List ExtDoc) (now nextId : Nat),
      (pullDocumentsFromDMS store none since opts fetchDMS now nextId).isOk = true) :=
  ⟨fun opts dl ul now cands store n =>
    pushItems_map_documentId opts dl ul now cands store n,
   fun opts now exts store nextId =>
    pullItems_map_externalId opts now exts store nextId,
   fun _ _ _ _ _ _ _ => rfl,
   fun _ _ _ _ _ _ => rfl⟩

/-- C8 counterexample: push invoked with an explicit document id list
selects a document whose external id is set and which is not marked dirty,
and running the same push twice re-uploads it successfully both times — the
second run reports 1 successful upload, not 0. -/
theorem c8_counterexample_explicit_ids_reupload :
    c8synced.external_dms_id ≠ none ∧ c8synced.needs_sync = false ∧
    c8synced ∈ findDocumentsNeedingSync [c8synced] (some [7]) ∧
    pushDocumentsToDMS [c8synced] none (some [7]) {} dlOk ul0 20 0 =
      Except.ok (c8rep, c8st1, 1) ∧
    pushDocumentsToDMS c8st1 none (some [7]) {} dlOk ul0 21 0 =
      Except.ok (c8rep, c8st2, 1) ∧
    c8rep.successful = 1 :=
  ⟨by decide, rfl, by decide, rfl, rfl, rfl⟩

/-- C8 (amended): for the default candidate scope (no explicit id list),
selection only ever returns documents with a null external id or the dirty
flag set, and push is idempotent: a second default-scope push with no
intervening local changes (same document-determined download and upload
outcomes) produces zero successful uploads. -/
theorem c8_amended_default_scope_idempotent (store : List Doc) (opts : SyncOptions)
    (dl : Doc → Except String String) (u : Doc → String → Except String UploadResult)
    (now now' n0 n1 : Nat) (rep1 rep2 : SyncReport) (st1 st2 : List Doc) (m1 m2 : Nat)
    (h1 : pushDocumentsToDMS store none none opts dl (fun _ => u) now n0 =
      Except.ok (rep1, st1, m1))
    (h2 : pushDocumentsToDMS st1 none none opts dl (fun _ => u) now' n1 =
      Except.ok (rep2, st2, m2)) :
    (∀ d ∈ findDocumentsNeedingSync store none,
      d.external_dms_id = none ∨ d.needs_sync = true) ∧
    rep2.successful = 0 := by
  constructor
  · intro d hd
    simp only [findDocumentsNeedingSync] at hd
    have hp := (List.mem_filter.mp hd).2
    simpa [needsSyncPred] using hp
  · obtain ⟨hrep1, hst1, -⟩ :=
      pushDocumentsToDMS_ok store none none opts dl (fun _ => u) now n0 rep1 st1 m1 h1
    obtain ⟨hrep2, -, -⟩ :=
      pushDocumentsToDMS_ok st1 none none opts dl (fun _ => u) now' n1 rep2 st2 m2 h2
    subst hrep2
    have hinv : ∀ d ∈ store, needsSyncPred d = true → itemSucceeds opts dl u d = true →
        d ∈ findDocumentsNeedingSync store none := by
      intro d hd hp _
      simp only [findDocumentsNeedingSync]
      exact List.mem_filter.mpr ⟨hd, hp⟩
    have hclears :=
      pushItems_clears_ready opts dl u now (findDocumentsNeedingSync store none) store n0 hinv
    rw [← hst1] at hclears
    have hnil : (findDocumentsNeedingSync st1 none).filter (itemSucceeds opts dl u) = [] := by
      apply List.filter_eq_nil_iff.mpr
      intro d hd
      simp only [findDocumentsNeedingSync] at hd
      exact fun hs => hclears d (List.mem_filter.mp hd).1 (List.mem_filter.mp hd).2 hs
    show ((pushItems opts dl (fun _ => u) now' (findDocumentsNeedingSync st1 none) st1 n1).1.filter
      (fun r => decide (r.status = ItemStatus.success))).length = 0
    rw [pushItems_success_count, hnil]
    rfl

/-- C8 amended witness: one never-synced document, pushed twice with the
default scope; the second run has zero successes. -/
theorem c8_amended_witness :
    pushDocumentsToDMS [pushDoc 9] none none {} dlOk ul0 30 0 =
      Except.ok (c8wrep1, c8wst1, 1) ∧
    pushDocumentsToDMS c8wst1 none none {} dlOk ul0 31 0 =
      Except.ok (mkSyncReport 0 [], c8wst1, 0) ∧
    ((∀ d ∈ findDocumentsNeedingSync [pushDoc 9] none,
       d.external_dms_id = none ∨ d.needs_sync = true) ∧
     (mkSyncReport 0 []).successful = 0) :=
  ⟨rfl, rfl,
   c8_amended_default_scope_idempotent [pushDoc 9] {} dlOk ulDet 30 31 0 0
     c8wrep1 (mkSyncReport 0 []) c8wst1 c8wst1 1 0 rfl rfl⟩

/-- C9 counterexample: a push request naming an unconfigured DMS system
yields the error response, whose top-level keys are exactly
`success, error, timestamp` — neither the claimed success shape nor the
claimed error shape with a `message` field. -/
theorem c9_counterexample_error_lacks_message :
    topKeys (serve c9req [] [] dlOk ul0 fetchNone 42 0 0).1 =
      ["success", "error", "timestamp"] ∧
    ¬(["success", "error", "timestamp"] =
        ["success", "action", "result", "timestamp"] ∨
      ["success", "error", "timestamp"] =
        ["success", "error", "message", "timestamp"]) :=
  ⟨rfl, by decide⟩

/-- C9 (amended): every response of the trigger surface has one of exactly
three top-level shapes: the success shape without `dmsSystemId` (when the
request carried none, since `JSON.stringify` drops the undefined key), the
success shape with `dmsSystemId`, or the error shape
`success, error, timestamp` — which carries no `message` field. -/
theorem c9_amended_response_shapes (req : DMSSyncRequest) (store : List Doc)
    (logs : List SyncLogRow) (dl : Doc → Except String String)
    (ul : Nat → Doc → String → Except String UploadResult)
    (fetchDMS : Option Nat → List ExtDoc) (now n0 nextId : Nat) :
    topKeys (serve req store logs dl ul fetchDMS now n0 nextId).1 =
        ["success", "action", "result", "timestamp"] ∨
    topKeys (serve req store logs dl ul fetchDMS now n0 nextId).1 =
        ["success", "action", "dmsSystemId", "result", "timestamp"] ∨
    topKeys (serve req store logs dl ul fetchDMS now n0 nextId).1 =
        ["success", "error", "timestamp"] := by
  unfold serve
  cases hd : dispatchSyncAction req store logs dl ul fetchDMS now n0 nextId with
  | error m =>
    right; right
    simp [topKeys]
  | ok j =>
    cases hs : req.dmsSystemId with
    | none =>
      left
      simp [topKeys, optField, hs]
    | some s =>
      right; left
      simp [topKeys, optField, hs]

/-- C10: for every completed push or pull run, the report's
`totalDocuments` equals the length of its per-item result list (one entry
per candidate), and `successful + failed + dryRun = totalDocuments` (each
entry has exactly one of the three statuses). -/
theorem c10_report_internally_consistent :
    (∀ (store : List Doc) (sysId : Option String) (ids : Option (List Nat))
       (opts : SyncOptions) (dl : Doc → Except String String)
       (ul : Nat → Doc → String → Except String UploadResult) (now n0 : Nat)
       (rep : SyncReport) (st : List Doc) (n : Nat),
      pushDocumentsToDMS store sysId ids opts dl ul now n0 = Except.ok (rep, st, n) →
      rep.totalDocuments = rep.results.length ∧
      rep.successful + rep.failed + rep.dryRun = rep.totalDocuments) ∧
    (∀ (store : List Doc) (sysId : Option String) (since : Option Nat)
       (opts : SyncOptions) (fetchDMS : Option Nat → List ExtDoc) (now nextId : Nat)
       (rep : SyncReport) (st : List Doc) (n : Nat),
      pullDocumentsFromDMS store sysId since opts fetchDMS now nextId =
        Except.ok (rep, st, n) →
      rep.totalDocuments = rep.results.length ∧
      rep.successful + rep.failed + rep.dryRun = rep.totalDocuments) := by
  constructor
  · intro store sysId ids opts dl ul now n0 rep st n h
    obtain ⟨hrep, -, -⟩ :=
      pushDocumentsToDMS_ok store sysId ids opts dl ul now n0 rep st n h
    subst hrep
    constructor
    · simp [mkSyncReport, pushItems_length]
    · simp only [mkSyncReport]
      rw [itemStatus_filter_partition, pushItems_length]
  · intro store sysId since opts fetchDMS now nextId rep st n h
    obtain ⟨hrep, -, -⟩ :=
      pullDocumentsFromDMS_ok store sysId since opts fetchDMS now nextId rep st n h
    subst hrep
    constructor
    · simp [mkSyncReport, pullItems_length]
    · simp only [mkSyncReport]
      rw [itemStatus_filter_partition, pullItems_length]

/-- C10 witness at concrete empty runs. -/
theorem c10_report_internally_consistent_witness :
    pushDocumentsToDMS [] none none {} dlOk ul0 0 0 =
      Except.ok (mkSyncReport 0 [], [], 0) ∧
    pullDocumentsFromDMS [] none none {} fetchNone 0 0 =
      Except.ok (mkSyncReport 0 [], [], 0) ∧
    ((mkSyncReport 0 []).totalDocuments = (mkSyncReport 0 []).results.length ∧
     (mkSyncReport 0 []).successful + (mkSyncReport 0 []).failed +
       (mkSyncReport 0 []).dryRun = (mkSyncReport 0 []).totalDocuments) :=
  ⟨rfl, rfl,
   c10_report_internally_consistent.1 [] none none {} dlOk ul0 0 0
     (mkSyncReport 0 []) [] 0 rfl⟩

end VZ
